import Mathlib

/-!
Verification development for the fireplexity search route
(`app/api/fireplexity/route.ts`, given here as `src/unnamed/part_000`) and the
`check-env` route (`src/app/api/fireplexity/check-env/route.ts`).

The pipeline of the POST handler is embedded shallowly: provider payloads,
the fan-out outcomes, normalization, enrichment, context building and the
emitted event trace are all explicit data; external calls (SearxNG search,
Firecrawl scrape, the language model, `new URL(...).hostname`,
`detectCompanyTicker`) are supplied as outcome parameters of the run.
JavaScript strings become `String`, `undefined`-able values become `Option`,
JS `a || b` becomes `jsOr`, and thrown values become an explicit `Thrown`
record.  The relevance selector `selectRelevantContent` lives in
`lib/content-selection`, which is not part of this snapshot; it is modelled
from the spec (see its doc comment).
-/

/-- JavaScript truthiness of an optional string: `undefined` and the empty
string are falsy, every other string is truthy. -/
def truthy : Option String → Bool
  | none => false
  | some s => s != ("")

/-- JavaScript `a || b` for optional string values. -/
def jsOr (a b : Option String) : Option String :=
  if truthy a then a else b

/-- First truthy entry of a list of optional strings; spec-side reading of an
ordered fallback chain of candidate fields ("the first present, non-empty
value wins"). -/
def firstTruthy : List (Option String) → Option String
  | [] => none
  | o :: rest => if truthy o then o else firstTruthy rest

/-- Right-nested JS `||` chain over a list of candidates, the shape the
route writes literally as `a || b || c`. -/
def chainOr : List (Option String) → Option String
  | [] => none
  | [o] => o
  | o :: rest => jsOr o (chainOr rest)

/-- One raw provider result item.  Every field the route ever reads appears
here as an optional value; an absent key is `none`. -/
structure RawItem where
  url : Option String := none
  href : Option String := none
  link : Option String := none
  pageUrl : Option String := none
  sourceUrl : Option String := none
  img_src : Option String := none
  title : Option String := none
  content : Option String := none
  summary : Option String := none
  abstract : Option String := none
  description : Option String := none
  thumbnail : Option String := none
  image : Option String := none
  imageUrl : Option String := none
  image_url : Option String := none
  thumbnailUrl : Option String := none
  img : Option String := none
  img_srcset : Option String := none
  thumbnail_src : Option String := none
  date : Option String := none
  publishedDate : Option String := none
  published_at : Option String := none
  publishedAt : Option String := none
  published : Option String := none
  time : Option String := none
  source : Option String := none
  engines : List String := []
  imageWidth : Option Int := none
  imageHeight : Option Int := none
  position : Option Int := none
deriving Repr, DecidableEq

/-- Normalized web source (lines 240-265 of the route). -/
structure Source where
  url : String
  title : String
  description : Option String := none
  content : Option String := none
  markdown : Option String := none
  favicon : Option String := none
  image : Option String := none
  siteName : Option String := none
deriving Repr, DecidableEq

/-- Normalized news item (lines 268-295 of the route). -/
structure NewsItem where
  url : String
  title : Option String := none
  description : Option String := none
  publishedDate : Option String := none
  source : Option String := none
  image : Option String := none
deriving Repr, DecidableEq

/-- Normalized image item (lines 298-320 of the route). -/
structure ImageItem where
  url : String
  title : String
  thumbnail : Option String := none
  source : Option String := none
  width : Option Int := none
  height : Option Int := none
  position : Option Int := none
deriving Repr, DecidableEq

/-- Host and site-name pair produced by `buildHostInfo`. -/
structure HostInfo where
  host : Option String
  siteName : Option String
deriving Repr, DecidableEq

/-- The `hostname.replace(/^www\./, '')` cleanup of `buildHostInfo`. -/
def stripWwwDot (h : String) : String :=
  if h.startsWith ("www.") then h.drop 4 else h

/-- Translation of `buildHostInfo` (lines 225-234).  `parseHost` stands for
`new URL(url).hostname`; it returns `none` when the `URL` constructor throws,
which the source catches and maps to an undefined pair. -/
def buildHostInfo (parseHost : String → Option String) (url : Option String) :
    HostInfo :=
  if truthy url then
    match parseHost (url.getD ("")) with
    | none => HostInfo.mk none none
    | some hostname => HostInfo.mk (some hostname) (some (stripWwwDot hostname))
  else HostInfo.mk none none

/-- Translation of `buildFavicon` (lines 236-237). -/
def buildFavicon (host : Option String) : Option String :=
  if truthy host then
    some (("https://www.google.com/s2/favicons?domain=") ++ host.getD ("") ++ ("&sz=64"))
  else none

/-- The arrow body of lines 241-255: resolve the link from
`url || href || link`, return `null` when that chain is falsy, otherwise
build the source record. -/
def webSourceOf (parseHost : String → Option String) (item : RawItem) :
    Option Source :=
  let url := jsOr item.url (jsOr item.href item.link)
  if truthy url then
    let hi := buildHostInfo parseHost url
    some (Source.mk (url.getD (""))
      ((jsOr item.title url).getD (""))
      (jsOr item.content (jsOr item.summary item.abstract))
      item.content
      none
      (buildFavicon hi.host)
      (jsOr item.img_src (jsOr item.thumbnail item.image))
      (jsOr hi.siteName hi.host))
  else none

/-- Transformation of the general web results into `Source` values
(lines 240-265): map the arrow body and `.filter(Boolean)` the nulls away. -/
def normalizeSources (parseHost : String → Option String)
    (webResults : List RawItem) : List Source :=
  webResults.filterMap (webSourceOf parseHost)

/-- Intermediate news record built by the `.map` of lines 268-295, before the
`.filter((item) => item.url)` step; an unresolvable URL becomes `""` (JS
`undefined`), which the filter then drops. -/
def newsRecordOf (parseHost : String → Option String) (item : RawItem) : NewsItem :=
  let itemUrl := jsOr item.url (jsOr item.link (jsOr item.pageUrl item.sourceUrl))
  let imageUrl := jsOr item.imageUrl (jsOr item.image_url (jsOr item.image
    (jsOr item.thumbnail (jsOr item.thumbnailUrl (jsOr item.img_src
      (jsOr item.img item.img_srcset))))))
  let published := jsOr item.date (jsOr item.publishedDate (jsOr item.published_at
    (jsOr item.publishedAt (jsOr item.published item.time))))
  let hi := buildHostInfo parseHost itemUrl
  NewsItem.mk (itemUrl.getD ("")) item.title
    (jsOr item.content (jsOr item.summary item.description))
    published
    (jsOr item.source (jsOr item.engines.head? hi.siteName))
    imageUrl

/-- Transformation of the news results (lines 268-295): map then filter on a
truthy `url`. -/
def normalizeNews (parseHost : String → Option String)
    (newsSource : List RawItem) : List NewsItem :=
  (newsSource.map (newsRecordOf parseHost)).filter (fun n => n.url != (""))

/-- The arrow body of lines 298-319: resolve the target URL from
`url || link || pageUrl || sourceUrl || img_src`, return `null` when it is
falsy, otherwise build the image record. -/
def imageItemOf (parseHost : String → Option String) (item : RawItem) :
    Option ImageItem :=
  let targetUrl := jsOr item.url (jsOr item.link (jsOr item.pageUrl
    (jsOr item.sourceUrl item.img_src)))
  let imageUrl := jsOr item.imageUrl (jsOr item.image_url (jsOr item.image
    (jsOr item.thumbnail (jsOr item.thumbnailUrl (jsOr item.img_src
      item.thumbnail_src)))))
  if truthy targetUrl then
    some (ImageItem.mk (targetUrl.getD (""))
      ((jsOr item.title (some ("Untitled"))).getD ("Untitled"))
      imageUrl
      (buildHostInfo parseHost targetUrl).siteName
      item.imageWidth item.imageHeight item.position)
  else none

/-- Transformation of the image results (lines 298-320): map the arrow body
and `.filter(Boolean)` the nulls away. -/
def normalizeImages (parseHost : String → Option String)
    (imageSource : List RawItem) : List ImageItem :=
  imageSource.filterMap (imageItemOf parseHost)

/-- Firecrawl scrape data for one fulfilled target, as read from
`scrapeJson.data?.markdown` and `scrapeJson.data?.content` (lines 356-361);
an absent `data` object gives two `none` fields. -/
inductive ScrapeOutcome where
  | rejected
  | fulfilled (markdown : Option String) (content : Option String)
deriving Repr, DecidableEq

/-- The merge step of lines 365-373 for one fulfilled scrape result: find the
first source whose `url` equals the scraped url and overwrite its `markdown`
and `content` with `value || previous` (JS `||`, so an absent or empty
fetched value keeps the prior field). -/
def updateFirst : List Source → String → Option String → Option String →
    List Source
  | [], _, _, _ => []
  | s :: rest, url, md, ct =>
    if s.url = url then
      { s with markdown := if truthy md then md else s.markdown,
               content := if truthy ct then ct else s.content } :: rest
    else s :: updateFirst rest url md ct

/-- Walk the `Promise.allSettled` results in order (lines 336-373): the i-th
outcome belongs to the i-th target; rejected outcomes are skipped, fulfilled
ones are merged into the source list by URL match. -/
def mergeScrapes : List Source → List Source → (Nat → ScrapeOutcome) → Nat →
    List Source
  | acc, [], _, _ => acc
  | acc, t :: rest, outs, i =>
    match outs i with
    | ScrapeOutcome.rejected => mergeScrapes acc rest outs (i + 1)
    | ScrapeOutcome.fulfilled md ct =>
        mergeScrapes (updateFirst acc t.url md ct) rest outs (i + 1)

/-- Enrichment of the source list (lines 331-373): scrape the first `limit`
sources (`targets = sources.slice(0, limit)`) and merge each settled result
back into the list. -/
def enrichSources (srcs : List Source) (outs : Nat → ScrapeOutcome)
    (limit : Nat) : List Source :=
  mergeScrapes srcs (srcs.take limit) outs 0

/-- A JavaScript number as produced by `Number(...)`: `NaN`, an infinity, or
a finite value (every JS float is a rational). -/
inductive JSNum where
  | nan
  | posInf
  | negInf
  | val (q : ℚ)
deriving Repr, DecidableEq

/-- Line 333: `Number.isFinite(parsedLimit) && parsedLimit > 0 ?
Math.floor(parsedLimit) : 5`. -/
def scrapeLimitInt (parsedLimit : JSNum) : Int :=
  match parsedLimit with
  | JSNum.val q => if 0 < q then Int.floor q else 5
  | _ => 5

/-- Line 334: the slice bound `Math.max(1, scrapeLimit)` actually applied to
the source list. -/
def effectiveLimit (parsedLimit : JSNum) : Nat :=
  (max 1 (scrapeLimitInt parsedLimit)).toNat

/-- A JavaScript thrown value as inspected by the catch block of lines
562-608: whether it is an `Error`, its `message`, and its `statusCode` /
`status` properties when the corresponding key is present. -/
structure Thrown where
  isError : Bool
  message : String
  statusCode : Option Nat := none
  status : Option Nat := none
deriving Repr, DecidableEq

/-- Line 569: `error instanceof Error ? error.message : 'Unknown error'`. -/
def errMessage (t : Thrown) : String :=
  if t.isError then t.message else ("Unknown error")

/-- Lines 570-574: prefer the `statusCode` property, then `status`. -/
def resolvedStatusCode (t : Thrown) : Option Nat :=
  match t.statusCode with
  | some c => some c
  | none => t.status

/-- One entry of the user-friendly error table. -/
structure ErrResp where
  error : String
  suggestion : Option String := none
deriving Repr, DecidableEq

/-- The `errorResponses` table of lines 577-594. -/
def errorResponses (c : Nat) : Option ErrResp :=
  if c = 401 then
    some (ErrResp.mk ("Invalid API key")
      (some ("Please check your Firecrawl API key is correct.")))
  else if c = 402 then
    some (ErrResp.mk ("Insufficient credits")
      (some ("You\x27ve run out of Firecrawl credits. Please upgrade your plan.")))
  else if c = 429 then
    some (ErrResp.mk ("Rate limit exceeded")
      (some ("Too many requests. Please wait a moment and try again.")))
  else if c = 504 then
    some (ErrResp.mk ("Request timeout")
      (some ("The search took too long. Try a simpler query or fewer sources.")))
  else none

/-- Lines 596-598: `statusCode && errorResponses[statusCode] ?
errorResponses[statusCode] : { error: errorMessage }` (a status code of 0 is
falsy in JS). -/
def errRespOf (t : Thrown) : ErrResp :=
  match resolvedStatusCode t with
  | some c =>
    if c ≠ 0 then
      match errorResponses c with
      | some r => r
      | none => ErrResp.mk (errMessage t) none
    else ErrResp.mk (errMessage t) none
  | none => ErrResp.mk (errMessage t) none

/-- Line 606: `...(statusCode ? { statusCode } : {})`. -/
def includedStatus (t : Thrown) : Option Nat :=
  match resolvedStatusCode t with
  | some c => if c ≠ 0 then some c else none
  | none => none

/-- The SearchBundle: the three collections carried by a `data-sources`
event (lines 376-395). -/
structure SearchBundle where
  sources : List Source
  newsResults : List NewsItem
  imageResults : List ImageItem
deriving Repr, DecidableEq

/-- Events written to the UIMessage stream by the execute callback, plus the
token deltas merged from the generation stream. -/
inductive Event where
  | status (id : String) (message : String)
  | sources (bundle : SearchBundle)
  | ticker (symbol : String)
  | tokenDelta (text : String)
  | followup (questions : List String)
  | error (error : String) (suggestion : Option String) (statusCode : Option Nat)
deriving Repr, DecidableEq

/-- The `data-error` event written by the catch block (lines 600-608). -/
def errorEvent (t : Thrown) : Event :=
  Event.error (errRespOf t).error (errRespOf t).suggestion (includedStatus t)

/-- One SearxNG response body: the results collection may sit under
`results`, or (for the news/images fallbacks) under `news` / `images`; a
field that is absent or not an array is `none` (lines 212-223). -/
structure SearchPayload where
  results : Option (List RawItem) := none
  news : Option (List RawItem) := none
  images : Option (List RawItem) := none
deriving Repr, DecidableEq

/-- Line 213: `Array.isArray(webData.results) ? webData.results : []`. -/
def webResultsOf (d : SearchPayload) : List RawItem :=
  d.results.getD []

/-- Lines 188-198 wrap the news search in a try/catch returning `null`. -/
def tryPayload (o : Except Thrown SearchPayload) : Option SearchPayload :=
  match o with
  | Except.ok d => some d
  | Except.error _ => none

/-- Lines 214-218: `Array.isArray(newsData?.results) ? newsData.results :
Array.isArray(newsData?.news) ? newsData.news : []`. -/
def newsSourceOf (o : Option SearchPayload) : List RawItem :=
  match o with
  | none => []
  | some d =>
    match d.results with
    | some rs => rs
    | none => d.news.getD []

/-- Lines 219-223, same shape for the images response. -/
def imageSourceOf (o : Option SearchPayload) : List RawItem :=
  match o with
  | none => []
  | some d =>
    match d.results with
    | some rs => rs
    | none => d.images.getD []

/-- Whether an external call outcome is a rejection. -/
def failed (o : Except Thrown SearchPayload) : Bool :=
  match o with
  | Except.error _ => true
  | Except.ok _ => false

/-- Everything the execute callback of one request observes from outside:
the query, the host parser, the three category-search outcomes, the parsed
`FIRECRAWL_SCRAPE_LIMIT` value when the variable is set, the per-target
scrape outcomes, the ticker detection result, the generation outcome (a list
of streamed chunks) and the follow-up generation outcome. -/
structure PipelineEnv where
  query : String
  parseHost : String → Option String
  webOutcome : Except Thrown SearchPayload
  newsOutcome : Except Thrown SearchPayload
  imagesOutcome : Except Thrown SearchPayload
  scrapeLimitVar : Option JSNum := none
  scrapeOutcome : Nat → ScrapeOutcome := fun _ => ScrapeOutcome.rejected
  tickerResult : Option String := none
  genOutcome : Except Thrown (List String) := Except.ok []
  followUpOutcome : Except Thrown String := Except.error (Thrown.mk true ("") none none)

/-- Line 332: `Number(process.env.FIRECRAWL_SCRAPE_LIMIT ?? 5)`; an unset
variable parses the literal 5. -/
def parsedLimitOf (env : PipelineEnv) : JSNum :=
  env.scrapeLimitVar.getD (JSNum.val 5)

/-- The normalized web sources of a run (empty when the required search
rejected, in which case the catch block runs instead). -/
def normalizedSources (env : PipelineEnv) : List Source :=
  match env.webOutcome with
  | Except.ok d => normalizeSources env.parseHost (webResultsOf d)
  | Except.error _ => []

/-- The normalized news collection of a run. -/
def normalizedNews (env : PipelineEnv) : List NewsItem :=
  normalizeNews env.parseHost (newsSourceOf (tryPayload env.newsOutcome))

/-- The normalized image collection of a run. -/
def normalizedImages (env : PipelineEnv) : List ImageItem :=
  normalizeImages env.parseHost (imageSourceOf (tryPayload env.imagesOutcome))

/-- The source list after the enrichment block (lines 323-373): enrichment
runs only when there is at least one source, otherwise the list is passed
through untouched. -/
def enrichedSources (env : PipelineEnv) : List Source :=
  if (normalizedSources env).isEmpty then normalizedSources env
  else enrichSources (normalizedSources env) env.scrapeOutcome
    (effectiveLimit (parsedLimitOf env))

/-- The bundle carried by the single `data-sources` event of a run
(lines 376-395). -/
def emittedBundle (env : PipelineEnv) : SearchBundle :=
  SearchBundle.mk (enrichedSources env) (normalizedNews env) (normalizedImages env)

/-- Helper for the spec model of the relevance selector: split a character
list into maximal alphanumeric runs (the accumulator holds the current run
reversed). -/
def splitWords : List Char → List Char → List (List Char)
  | [], acc => if acc.isEmpty then [] else [acc.reverse]
  | c :: rest, acc =>
    if c.isAlphanum then splitWords rest (c :: acc)
    else if acc.isEmpty then splitWords rest []
    else acc.reverse :: splitWords rest []

/-- Lower-cased alphanumeric tokens of a character list. -/
def lowerWords (l : List Char) : List (List Char) :=
  splitWords (l.map Char.toLower) []

/-- Significant query terms: case-insensitive tokens with very short
(stop-word-like) tokens excluded from scoring. -/
def significantTerms (query : List Char) : List (List Char) :=
  (lowerWords query).filter (fun w => 3 < w.length)

/-- Lexical-overlap score of one segment: the number of its tokens that are
significant query terms. -/
def segScore (terms : List (List Char)) (seg : List Char) : Nat :=
  ((lowerWords seg).filter (fun w => terms.contains w)).length

/-- Paragraph splitter for the spec model: cut at every blank line
(two consecutive newlines). -/
def splitParasAux (l acc : List Char) : List (List Char) :=
  match l with
  | [] => [acc.reverse]
  | [c] => splitParasAux [] (c :: acc)
  | c :: c2 :: rest2 =>
    if c = ('\n' : Char) ∧ c2 = ('\n' : Char) then
      acc.reverse :: splitParasAux rest2 []
    else splitParasAux (c2 :: rest2) (c :: acc)
termination_by l.length
decreasing_by all_goals (simp only [List.length_cons, List.length_nil]; omega)

/-- Paragraph-granularity candidate segments of a document. -/
def splitParas (l : List Char) : List (List Char) :=
  splitParasAux l []

/-- One scored candidate segment: its paragraph index in the document, its
text and its score. -/
structure Seg where
  idx : Nat
  text : List Char
  score : Nat
deriving Repr, DecidableEq

/-- Insertion into a list sorted by strictly descending score. -/
def insertDesc (x : Seg) : List Seg → List Seg
  | [] => [x]
  | y :: ys => if y.score < x.score then x :: y :: ys else y :: insertDesc x ys

/-- Sort candidates by descending score. -/
def sortDesc : List Seg → List Seg
  | [] => []
  | x :: xs => insertDesc x (sortDesc xs)

/-- Insertion into a list sorted by ascending document index. -/
def insertAsc (x : Seg) : List Seg → List Seg
  | [] => [x]
  | y :: ys => if x.idx ≤ y.idx then x :: y :: ys else y :: insertAsc x ys

/-- Restore original document order among the selected segments. -/
def sortAsc : List Seg → List Seg
  | [] => []
  | x :: xs => insertAsc x (sortAsc xs)

/-- Truncate a segment to at most `n` characters, cutting at the last
whitespace inside the slice when one exists (a content boundary, not
mid-token where avoidable). -/
def truncateBoundary (s : List Char) (n : Nat) : List Char :=
  if (((s.take n).reverse.dropWhile (fun c => !c.isWhitespace)).reverse).isEmpty
  then s.take n
  else ((s.take n).reverse.dropWhile (fun c => !c.isWhitespace)).reverse

/-- Separator cost of adding one more segment to a selection: two characters
(the blank line) unless the selection is still empty. -/
def segOverhead : List Seg → Nat
  | [] => 0
  | _ :: _ => 2

/-- Greedy selection under the character budget: walk the candidates in
descending-score order, keep each segment that still fits (counting the two
separator characters needed to join it), truncate the first segment that no
longer fits to the remaining budget and stop there. -/
def pickSegs : List Seg → Nat → List Seg → List Seg
  | [], _, chosen => chosen
  | s :: rest, remaining, chosen =>
    if s.text.length + segOverhead chosen ≤ remaining then
      pickSegs rest (remaining - (s.text.length + segOverhead chosen)) (s :: chosen)
    else if segOverhead chosen < remaining then
      { s with text := truncateBoundary s.text (remaining - segOverhead chosen) }
        :: chosen
    else chosen

/-- Join the selected segments with a blank line between them. -/
def joinSegs : List (List Char) → List Char
  | [] => []
  | s :: rest =>
    s ++ (match rest with
          | [] => []
          | _ :: _ => ('\n' : Char) :: ('\n' : Char) :: joinSegs rest)

/-- Character cost of a selection: segment lengths plus two separator
characters between consecutive segments. -/
def costOf (l : List Seg) : Nat :=
  (l.map (fun s => s.text.length)).sum + 2 * (l.length - 1)

/-- Candidate segments of a document for a query: the non-empty paragraphs,
indexed and scored, keeping only those with a positive score. -/
def candidateSegs (doc query : List Char) : List Seg :=
  (((splitParas doc).filter (fun p => !p.isEmpty)).enum.map
    (fun p => Seg.mk p.1 p.2 (segScore (significantTerms query) p.2))).filter
      (fun s => 0 < s.score)

/-- Character-list core of the relevance selector. -/
def selectRelevantContentL (doc query : List Char) (budget : Nat) : List Char :=
  if doc.length ≤ budget then doc
  else if (candidateSegs doc query).isEmpty then doc.take budget
  else joinSegs ((sortAsc (pickSegs (sortDesc (candidateSegs doc query)) budget [])).map
    (fun s => s.text))

/-- Modelled from the spec: the Relevance Selector
`selectRelevantContent(document, query, budget)` of `lib/content-selection`,
a module this snapshot does not contain.  Per spec section 4.4 it is a
deterministic pure function; a document no longer than the budget is
returned unchanged; otherwise the document is partitioned into
paragraph-granularity segments, each scored by case-insensitive lexical
overlap with the query's significant terms (very short stop-word-like
tokens excluded), segments are selected greedily by descending score but
emitted in original document order, the first segment that would exceed the
budget is truncated to the remaining budget at a content boundary, and a
query matching no terms falls back to the leading slice of the document up
to the budget. -/
def selectRelevantContent (doc query : String) (budget : Nat) : String :=
  String.mk (selectRelevantContentL doc.data query.data budget)

/-- Line 431: `source.markdown || source.content || ''`. -/
def bestContent (s : Source) : String :=
  if truthy s.markdown then s.markdown.getD ("")
  else if truthy s.content then s.content.getD ("")
  else ("")

/-- One context block (lines 430-433): the citation marker for 0-based index
`i` is `[i+1]`, followed by the title, the URL and the selected excerpt
under the per-source budget of 2000 characters. -/
def contextEntry (query : String) (p : Nat × Source) : String :=
  ("[") ++ toString (p.1 + 1) ++ ("] ") ++ p.2.title ++ ("\nURL: ") ++ p.2.url
    ++ ("\n") ++ selectRelevantContent (bestContent p.2) query 2000

/-- The generation context (lines 429-435): one block per source, in the
source list's order, joined by a separator line. -/
def buildContext (query : String) (srcs : List Source) : String :=
  String.intercalate ("\n\n---\n\n") (srcs.enum.map (contextEntry query))

/-- The context string a run builds (from the post-enrichment source
list). -/
def contextOfEnv (env : PipelineEnv) : String :=
  buildContext env.query (enrichedSources env)

/-- Lines 546-550: split the model response into lines, trim each, keep the
non-empty ones, and take at most five. -/
def processFollowUps (text : String) : List String :=
  ((((text.splitOn ("\n")).map String.trim).filter (fun q => 0 < q.length)).take 5)

/-- The two transient status events written before the fan-out search
(lines 122-134). -/
def preEvents : List Event :=
  [Event.status ("status-1") ("Starting search..."),
   Event.status ("status-2") ("Searching for relevant sources...")]

/-- Events produced from the generation stage onwards: the merged token
deltas and the follow-up event on success, or the caught error event when
awaiting the answer throws; a follow-up failure is swallowed
(lines 503-560). -/
def genEvents (env : PipelineEnv) : List Event :=
  match env.genOutcome with
  | Except.error e => [errorEvent e]
  | Except.ok chunks =>
    chunks.map Event.tokenDelta ++
      match env.followUpOutcome with
      | Except.ok t => [Event.followup (processFollowUps t)]
      | Except.error _ => []

/-- Events of a run whose required general search succeeded
(lines 323-560, in program order): the pre-enrichment status when sources
exist, the single `data-sources` event, the post-enrichment status, the
generation status, the optional ticker event, then the generation-stage
events. -/
def okEvents (env : PipelineEnv) : List Event :=
  (if (normalizedSources env).isEmpty then []
   else [Event.status ("status-3a") ("Fetching full article content...")])
  ++ [Event.sources (emittedBundle env)]
  ++ (if (normalizedSources env).isEmpty then []
      else [Event.status ("status-2b") ("Analyzing detailed content...")])
  ++ [Event.status ("status-3") ("Analyzing sources and generating answer...")]
  ++ (if truthy env.tickerResult then [Event.ticker (env.tickerResult.getD (""))]
      else [])
  ++ genEvents env

/-- What one run of the execute callback produces: the ordered event trace
and the generation context it built (empty when normalization was never
reached). -/
structure RunResult where
  events : List Event
  context : String
deriving Repr, DecidableEq

/-- One run of the execute callback (lines 88-610): a rejection of the
required general search reaches the catch block, which writes the single
`data-error` event; otherwise the pipeline runs to completion. -/
def runExecute (env : PipelineEnv) : RunResult :=
  match env.webOutcome with
  | Except.error e => RunResult.mk (preEvents ++ [errorEvent e]) ("")
  | Except.ok _ => RunResult.mk (preEvents ++ okEvents env) (contextOfEnv env)

/-- The `error` field of an error event, when the event is one. -/
def errorFieldOf : Event → Option String
  | Event.error m _ _ => some m
  | _ => none

/-- The `error` fields of all error events of a trace. -/
def errorFieldsOf (evts : List Event) : List String :=
  evts.filterMap errorFieldOf

/-- The bundles of all `data-sources` events of a trace. -/
def sourcesEventsOf (evts : List Event) : List SearchBundle :=
  evts.filterMap (fun ev =>
    match ev with
    | Event.sources b => some b
    | _ => none)

/-- Event classifiers used by the theorems. -/
def eventIsSources : Event → Bool
  | Event.sources _ => true
  | _ => false

/-- Token-delta classifier. -/
def eventIsTokenDelta : Event → Bool
  | Event.tokenDelta _ => true
  | _ => false

/-- Ticker classifier. -/
def eventIsTicker : Event → Bool
  | Event.ticker _ => true
  | _ => false

/-- Follow-up classifier. -/
def eventIsFollowup : Event → Bool
  | Event.followup _ => true
  | _ => false

/-- Error classifier. -/
def eventIsError : Event → Bool
  | Event.error _ _ _ => true
  | _ => false

/-- Source frame for enrichment: a source with its enrichable fields
blanked; everything else (url, title, description, favicon, image,
siteName) must survive enrichment unchanged. -/
def stripEnrichment (s : Source) : Source :=
  { s with markdown := none, content := none }

/-- The six environment variables the check-env route reads
(`src/app/api/fireplexity/check-env/route.ts`). -/
structure CheckEnvVars where
  firecrawlApiKey : Option String := none
  firecrawlBaseUrl : Option String := none
  openAIApiKey : Option String := none
  openAIBaseUrl : Option String := none
  openAIModel : Option String := none
  openAIApiMode : Option String := none

/-- The JSON body returned by the check-env GET endpoint: six presence
booleans and nothing else. -/
structure CheckEnvResponse where
  hasFirecrawlKey : Bool
  hasFirecrawlBaseUrl : Bool
  hasOpenAIKey : Bool
  hasOpenAIBaseUrl : Bool
  hasOpenAIModel : Bool
  hasOpenAIApiMode : Bool
deriving Repr, DecidableEq

/-- The GET handler of the check-env route: `!!process.env.X` for each of
the six variables. -/
def checkEnvGET (e : CheckEnvVars) : CheckEnvResponse :=
  CheckEnvResponse.mk (truthy e.firecrawlApiKey) (truthy e.firecrawlBaseUrl)
    (truthy e.openAIApiKey) (truthy e.openAIBaseUrl) (truthy e.openAIModel)
    (truthy e.openAIApiMode)

/-- Concrete raw web result used by the run witnesses. -/
def rawAlpha : RawItem :=
  { url := some ("https://a.example/alpha"), title := some ("Alpha"),
    content := some ("Alpha body text") }

/-- Concrete general-search payload for the C1 witness. -/
def payloadC1 : SearchPayload :=
  { results := some [rawAlpha] }

/-- Concrete run environment for the context/citation witness. -/
def envC1 : PipelineEnv :=
  { query := ("what is alpha"), parseHost := fun _ => none,
    webOutcome := Except.ok payloadC1,
    newsOutcome := Except.ok {}, imagesOutcome := Except.ok {} }

/-- Concrete thrown error for the required-search-failure witness. -/
def thrownC3 : Thrown :=
  { isError := true, message := ("network down") }

/-- Concrete run environment for the required-search-failure witness. -/
def envC3 : PipelineEnv :=
  { query := ("q"), parseHost := fun _ => none,
    webOutcome := Except.error thrownC3,
    newsOutcome := Except.ok {}, imagesOutcome := Except.ok {} }

/-- Concrete general-search payload for the best-effort-failure witness. -/
def payloadC4 : SearchPayload :=
  { results := some [rawAlpha] }

/-- Concrete run environment for the best-effort-failure witness: the news
category search rejects, everything else succeeds. -/
def envC4 : PipelineEnv :=
  { query := ("q"), parseHost := fun _ => none,
    webOutcome := Except.ok payloadC4,
    newsOutcome := Except.error (Thrown.mk true ("news down") none none),
    imagesOutcome := Except.ok {},
    genOutcome := Except.ok [("chunk one")] }

/-- Concrete general-search payload for the single-emission counterexample. -/
def payloadC8 : SearchPayload :=
  { results := some [rawAlpha] }

/-- Concrete run environment for the single-emission counterexample: the
general search succeeds with one normalized source. -/
def envC8 : PipelineEnv :=
  { query := ("q"), parseHost := fun _ => none,
    webOutcome := Except.ok payloadC8,
    newsOutcome := Except.ok {}, imagesOutcome := Except.ok {} }

/-- Concrete sources for the enrichment witnesses. -/
def srcAlpha : Source :=
  { url := ("https://a.example/alpha"), title := ("Alpha") }

/-- Second concrete source for the enrichment witnesses. -/
def srcBeta : Source :=
  { url := ("https://b.example/beta"), title := ("Beta"),
    content := some ("beta text") }

/-- Scrape outcomes for the enrichment-frame witness. -/
def outsC6 : Nat → ScrapeOutcome :=
  fun i => if i = 0 then ScrapeOutcome.fulfilled (some ("# Alpha")) none
    else ScrapeOutcome.rejected

/-- Check-env variable assignment used by the noninterference witness. -/
def checkVarsA : CheckEnvVars :=
  { firecrawlApiKey := some ("secret-key-1"), openAIModel := some ("gpt-4o-mini") }

/-- Second check-env variable assignment, agreeing with the first on
truthiness only. -/
def checkVarsB : CheckEnvVars :=
  { firecrawlApiKey := some ("another-secret"), openAIModel := some ("m") }

theorem dropWhile_length_le (p : Char → Bool) (l : List Char) :
    (List.dropWhile p l).length ≤ l.length := by
  induction l with
  | nil => simp
  | cons a t ih =>
    rw [List.dropWhile_cons]
    split
    · exact Nat.le_trans ih (Nat.le_succ _)
    · exact Nat.le_refl _

theorem truncateBoundary_length_le (s : List Char) (n : Nat) :
    (truncateBoundary s n).length ≤ n := by
  have ht : (s.take n).length ≤ n := List.length_take_le ..
  have hu : ((((s.take n).reverse.dropWhile (fun c => !c.isWhitespace))).reverse).length
      ≤ (s.take n).length := by
    rw [List.length_reverse]
    exact Nat.le_trans (dropWhile_length_le _ _) (Nat.le_of_eq (List.length_reverse _))
  unfold truncateBoundary
  split
  · exact ht
  · exact Nat.le_trans hu ht

theorem costOf_cons (s : Seg) (c : List Seg) :
    costOf (s :: c) = costOf c + s.text.length + segOverhead c := by
  cases c with
  | nil => simp [costOf, segOverhead]
  | cons x xs => simp [costOf, segOverhead]; omega

theorem pickSegs_cost (cands : List Seg) : ∀ (remaining : Nat) (chosen : List Seg),
    costOf (pickSegs cands remaining chosen) ≤ costOf chosen + remaining := by
  induction cands with
  | nil => intro r c; simp [pickSegs]
  | cons s rest ih =>
    intro r c
    simp only [pickSegs]
    split
    · next h =>
      refine Nat.le_trans (ih _ _) ?_
      rw [costOf_cons]
      omega
    · split
      · next h h2 =>
        rw [costOf_cons]
        have h3 := truncateBoundary_length_le s.text (r - segOverhead c)
        dsimp only
        omega
      · exact Nat.le_add_right _ _

theorem joinSegs_length (l : List (List Char)) :
    (joinSegs l).length = (l.map List.length).sum + 2 * (l.length - 1) := by
  induction l with
  | nil => simp [joinSegs]
  | cons s rest ih =>
    cases rest with
    | nil => simp [joinSegs]
    | cons t ts =>
      rw [joinSegs]
      simp only [List.length_append, List.length_cons, List.map_cons, List.sum_cons]
      rw [ih]
      simp only [List.map_cons, List.sum_cons, List.length_cons]
      omega

theorem insertAsc_perm (x : Seg) (l : List Seg) : (insertAsc x l).Perm (x :: l) := by
  induction l with
  | nil => exact List.Perm.refl _
  | cons y ys ih =>
    simp only [insertAsc]
    split
    · exact List.Perm.refl _
    · exact (ih.cons y).trans (List.Perm.swap x y ys)

theorem sortAsc_perm (l : List Seg) : (sortAsc l).Perm l := by
  induction l with
  | nil => exact List.Perm.refl _
  | cons x xs ih =>
    simp only [sortAsc]
    exact (insertAsc_perm x (sortAsc xs)).trans (ih.cons x)

theorem costOf_perm {l₁ l₂ : List Seg} (h : l₁.Perm l₂) : costOf l₁ = costOf l₂ := by
  unfold costOf
  rw [(h.map (fun s => s.text.length)).sum_eq, h.length_eq]

/-- C2.  For every document, query and budget, the Relevance Selector
`select(doc, query, budget)` returns at most `budget` characters, on every
path (no-op fast path, greedy selection with truncation, and the no-match
fallback to the leading slice); being a Lean function of its three
arguments, it is a deterministic pure function of its inputs. -/
theorem selectRelevantContent_budget_bound (doc query : String) (budget : Nat) :
    (selectRelevantContent doc query budget).length ≤ budget := by
  show (selectRelevantContentL doc.data query.data budget).length ≤ budget
  unfold selectRelevantContentL
  split
  · next h => exact h
  · split
    · exact List.length_take_le ..
    · next h h2 =>
      rw [joinSegs_length, List.map_map, List.length_map]
      have hperm := costOf_perm (sortAsc_perm
        (pickSegs (sortDesc (candidateSegs doc.data query.data)) budget []))
      have hcost := pickSegs_cost
        (sortDesc (candidateSegs doc.data query.data)) budget []
      simp only [costOf, Function.comp_def, List.map_nil, List.sum_nil,
        List.length_nil] at hperm hcost ⊢
      omega

theorem truthy_getD (o : Option String) (h : truthy o = true) :
    some (o.getD ("")) = o := by
  cases o with
  | none => simp [truthy] at h
  | some s => rfl

theorem chainOr_firstTruthy (l : List (Option String)) :
    (if truthy (chainOr l) then some ((chainOr l).getD ("")) else none)
      = firstTruthy l := by
  induction l with
  | nil => rfl
  | cons o rest ih =>
    cases rest with
    | nil =>
      have he : firstTruthy [o] = if truthy o = true then o else none := rfl
      by_cases h : truthy o = true
      · show (if truthy o = true then some (o.getD ("")) else none) = firstTruthy [o]
        rw [if_pos h, he, if_pos h]
        exact truthy_getD o h
      · show (if truthy o = true then some (o.getD ("")) else none) = firstTruthy [o]
        rw [if_neg h, he, if_neg h]
    | cons p ps =>
      by_cases h : truthy o = true
      · have h1 : chainOr (o :: p :: ps) = o := by
          show jsOr o (chainOr (p :: ps)) = o
          unfold jsOr
          rw [if_pos h]
        have h2 : firstTruthy (o :: p :: ps) = o := by
          rw [firstTruthy, if_pos h]
        rw [h1, h2, if_pos h]
        exact truthy_getD o h
      · have h1 : chainOr (o :: p :: ps) = chainOr (p :: ps) := by
          show jsOr o (chainOr (p :: ps)) = chainOr (p :: ps)
          unfold jsOr
          rw [if_neg h]
        have h2 : firstTruthy (o :: p :: ps) = firstTruthy (p :: ps) := by
          rw [firstTruthy, if_neg h]
        rw [h1, h2]
        exact ih

theorem bne_getD_empty (o : Option String) : ((o.getD ("")) != ("")) = truthy o := by
  cases o with
  | none => rfl
  | some s => rfl

theorem firstTruthy_some_ne (l : List (Option String)) (u : String)
    (h : firstTruthy l = some u) : u ≠ ("") := by
  induction l with
  | nil => simp [firstTruthy] at h
  | cons o rest ih =>
    by_cases ho : truthy o = true
    · rw [firstTruthy, if_pos ho] at h
      subst h
      simp only [truthy, bne_iff_ne] at ho
      exact ho
    · rw [firstTruthy, if_neg ho] at h
      exact ih h

theorem webSourceOf_map_url (ph : String → Option String) (it : RawItem) :
    (webSourceOf ph it).map (fun s => s.url)
      = firstTruthy [it.url, it.href, it.link] := by
  rw [← chainOr_firstTruthy [it.url, it.href, it.link]]
  have hc : chainOr [it.url, it.href, it.link]
      = jsOr it.url (jsOr it.href it.link) := rfl
  rw [hc]
  unfold webSourceOf
  by_cases h : truthy (jsOr it.url (jsOr it.href it.link)) = true
  · simp [h]
  · simp [h]

theorem imageItemOf_map_url (ph : String → Option String) (it : RawItem) :
    (imageItemOf ph it).map (fun i => i.url)
      = firstTruthy [it.url, it.link, it.pageUrl, it.sourceUrl, it.img_src] := by
  rw [← chainOr_firstTruthy [it.url, it.link, it.pageUrl, it.sourceUrl, it.img_src]]
  have hc : chainOr [it.url, it.link, it.pageUrl, it.sourceUrl, it.img_src]
      = jsOr it.url (jsOr it.link (jsOr it.pageUrl (jsOr it.sourceUrl it.img_src))) := rfl
  rw [hc]
  unfold imageItemOf
  by_cases h : truthy (jsOr it.url (jsOr it.link (jsOr it.pageUrl
      (jsOr it.sourceUrl it.img_src)))) = true
  · simp [h]
  · simp [h]

theorem normalizeSources_map_url (ph : String → Option String)
    (items : List RawItem) :
    (normalizeSources ph items).map (fun s => s.url)
      = items.filterMap (fun it => firstTruthy [it.url, it.href, it.link]) := by
  unfold normalizeSources
  rw [List.map_filterMap]
  have : (fun it => (webSourceOf ph it).map (fun s => s.url))
      = fun it => firstTruthy [it.url, it.href, it.link] :=
    funext (webSourceOf_map_url ph)
  rw [this]

theorem normalizeImages_map_url (ph : String → Option String)
    (items : List RawItem) :
    (normalizeImages ph items).map (fun i => i.url)
      = items.filterMap (fun it =>
          firstTruthy [it.url, it.link, it.pageUrl, it.sourceUrl, it.img_src]) := by
  unfold normalizeImages
  rw [List.map_filterMap]
  have : (fun it => (imageItemOf ph it).map (fun i => i.url))
      = fun it => firstTruthy [it.url, it.link, it.pageUrl, it.sourceUrl, it.img_src] :=
    funext (imageItemOf_map_url ph)
  rw [this]

theorem newsRecordOf_url (ph : String → Option String) (it : RawItem) :
    (newsRecordOf ph it).url
      = (jsOr it.url (jsOr it.link (jsOr it.pageUrl it.sourceUrl))).getD ("") := rfl

theorem normalizeNews_map_url (ph : String → Option String)
    (items : List RawItem) :
    (normalizeNews ph items).map (fun n => n.url)
      = items.filterMap (fun it =>
          firstTruthy [it.url, it.link, it.pageUrl, it.sourceUrl]) := by
  induction items with
  | nil => rfl
  | cons it rest ih =>
    have hft := chainOr_firstTruthy [it.url, it.link, it.pageUrl, it.sourceUrl]
    have hc : chainOr [it.url, it.link, it.pageUrl, it.sourceUrl]
        = jsOr it.url (jsOr it.link (jsOr it.pageUrl it.sourceUrl)) := rfl
    rw [hc] at hft
    have hp : ((newsRecordOf ph it).url != (""))
        = truthy (jsOr it.url (jsOr it.link (jsOr it.pageUrl it.sourceUrl))) := by
      rw [newsRecordOf_url, bne_getD_empty]
    simp only [normalizeNews] at ih
    simp only [normalizeNews, List.map_cons, List.filter_cons]
    by_cases h : truthy (jsOr it.url (jsOr it.link (jsOr it.pageUrl it.sourceUrl))) = true
    · rw [if_pos h] at hft
      rw [hp, if_pos h, List.map_cons, newsRecordOf_url, ih]
      simp only [List.filterMap_cons]
      rw [← hft]
    · rw [if_neg h] at hft
      rw [hp, if_neg h, ih]
      simp only [List.filterMap_cons]
      rw [← hft]

/-- C7.  Normalization is total (the Lean functions below are total, so no
payload makes it throw), resolves each item's URL by an ordered fallback
chain in which the first present non-empty candidate wins, drops every item
whose chain resolves to nothing, and therefore every element of the
bundle's sources, news and images collections has a non-empty `url`. -/
theorem normalization_url_resolution_invariant (ph : String → Option String)
    (web news imgs : List RawItem) :
    ((normalizeSources ph web).map (fun s => s.url)
        = web.filterMap (fun it => firstTruthy [it.url, it.href, it.link]))
    ∧ ((normalizeNews ph news).map (fun n => n.url)
        = news.filterMap (fun it =>
            firstTruthy [it.url, it.link, it.pageUrl, it.sourceUrl]))
    ∧ ((normalizeImages ph imgs).map (fun i => i.url)
        = imgs.filterMap (fun it =>
            firstTruthy [it.url, it.link, it.pageUrl, it.sourceUrl, it.img_src]))
    ∧ (∀ s ∈ normalizeSources ph web, s.url ≠ (""))
    ∧ (∀ n ∈ normalizeNews ph news, n.url ≠ (""))
    ∧ (∀ i ∈ normalizeImages ph imgs, i.url ≠ ("")) := by
  refine ⟨normalizeSources_map_url ph web, normalizeNews_map_url ph news,
    normalizeImages_map_url ph imgs, ?_, ?_, ?_⟩
  · intro s hs
    have hm : s.url ∈ (normalizeSources ph web).map (fun s => s.url) :=
      List.mem_map_of_mem _ hs
    rw [normalizeSources_map_url] at hm
    rcases List.mem_filterMap.mp hm with ⟨it, _, heq⟩
    exact firstTruthy_some_ne _ _ heq
  · intro n hn
    have hm : n.url ∈ (normalizeNews ph news).map (fun n => n.url) :=
      List.mem_map_of_mem _ hn
    rw [normalizeNews_map_url] at hm
    rcases List.mem_filterMap.mp hm with ⟨it, _, heq⟩
    exact firstTruthy_some_ne _ _ heq
  · intro i hi
    have hm : i.url ∈ (normalizeImages ph imgs).map (fun i => i.url) :=
      List.mem_map_of_mem _ hi
    rw [normalizeImages_map_url] at hm
    rcases List.mem_filterMap.mp hm with ⟨it, _, heq⟩
    exact firstTruthy_some_ne _ _ heq

/-- Witness for C7 at a concrete payload. -/
theorem normalization_url_resolution_invariant_witness :
    (((normalizeSources (fun _ => none) [rawAlpha]).map (fun s => s.url)
        = [rawAlpha].filterMap (fun it => firstTruthy [it.url, it.href, it.link]))
    ∧ ((normalizeNews (fun _ => none) []).map (fun n => n.url)
        = ([] : List RawItem).filterMap (fun it =>
            firstTruthy [it.url, it.link, it.pageUrl, it.sourceUrl]))
    ∧ ((normalizeImages (fun _ => none) []).map (fun i => i.url)
        = ([] : List RawItem).filterMap (fun it =>
            firstTruthy [it.url, it.link, it.pageUrl, it.sourceUrl, it.img_src]))
    ∧ (∀ s ∈ normalizeSources (fun _ => none) [rawAlpha], s.url ≠ (""))
    ∧ (∀ n ∈ normalizeNews (fun _ => none) [], n.url ≠ (""))
    ∧ (∀ i ∈ normalizeImages (fun _ => none) [], i.url ≠ (""))) :=
  normalization_url_resolution_invariant (fun _ => none) [rawAlpha] [] []

/-- C9.  The follow-up list derived from the model response has at most five
entries, is a subsequence of the trimmed lines of the response (so every
entry is a trimmed line, kept in original line order), contains no empty
entry, and a response whose every line trims to nothing (in particular an
empty or all-whitespace response) yields the empty list rather than an
error. -/
theorem followup_questions_trimmed_bounded (text : String) :
    (processFollowUps text).length ≤ 5
    ∧ List.Sublist (processFollowUps text) ((text.splitOn ("\n")).map String.trim)
    ∧ (∀ q ∈ processFollowUps text, q ≠ (""))
    ∧ ((∀ l ∈ text.splitOn ("\n"), String.trim l = ("")) →
        processFollowUps text = []) := by
  refine ⟨List.length_take_le .., (List.take_sublist ..).trans (List.filter_sublist ..),
    ?_, ?_⟩
  · intro q hq h0
    subst h0
    have hq' := (List.take_sublist 5 _).subset hq
    have hlen := (List.mem_filter.mp hq').2
    simp at hlen
  · intro hall
    unfold processFollowUps
    have hnil : ((text.splitOn ("\n")).map String.trim).filter
        (fun q => 0 < q.length) = [] := by
      rw [List.filter_eq_nil_iff]
      intro a ha
      rcases List.mem_map.mp ha with ⟨l0, hl0, hal⟩
      subst hal
      rw [hall l0 hl0]
      simp
    rw [hnil]
    rfl

/-- Witness for C9 at a concrete model response. -/
theorem followup_questions_trimmed_bounded_witness :
    (processFollowUps (" One? \nTwo?\n\n")).length ≤ 5
    ∧ List.Sublist (processFollowUps (" One? \nTwo?\n\n"))
        (((" One? \nTwo?\n\n").splitOn ("\n")).map String.trim)
    ∧ (∀ q ∈ processFollowUps (" One? \nTwo?\n\n"), q ≠ (""))
    ∧ ((∀ l ∈ (" One? \nTwo?\n\n").splitOn ("\n"), String.trim l = ("")) →
        processFollowUps (" One? \nTwo?\n\n") = []) :=
  followup_questions_trimmed_bounded (" One? \nTwo?\n\n")

/-- C10.  The check-env GET endpoint depends only on the truthiness (set and
non-empty versus unset or empty) of the six variables it inspects: any two
process environments agreeing on those six booleans receive identical
responses, and the response type carries only the six presence booleans, so
no credential value can appear in it. -/
theorem check_env_truthiness_noninterference (e1 e2 : CheckEnvVars)
    (h1 : truthy e1.firecrawlApiKey = truthy e2.firecrawlApiKey)
    (h2 : truthy e1.firecrawlBaseUrl = truthy e2.firecrawlBaseUrl)
    (h3 : truthy e1.openAIApiKey = truthy e2.openAIApiKey)
    (h4 : truthy e1.openAIBaseUrl = truthy e2.openAIBaseUrl)
    (h5 : truthy e1.openAIModel = truthy e2.openAIModel)
    (h6 : truthy e1.openAIApiMode = truthy e2.openAIApiMode) :
    checkEnvGET e1 = checkEnvGET e2 := by
  unfold checkEnvGET
  rw [h1, h2, h3, h4, h5, h6]

/-- Witness for C10: two environments holding different credential strings
of equal truthiness get the same response. -/
theorem check_env_truthiness_noninterference_witness :
    checkEnvGET checkVarsA = checkEnvGET checkVarsB :=
  check_env_truthiness_noninterference checkVarsA checkVarsB
    (by decide) (by decide) (by decide) (by decide) (by decide) (by decide)

theorem updateFirst_map_strip (l : List Source) (u : String) (md ct : Option String) :
    (updateFirst l u md ct).map stripEnrichment = l.map stripEnrichment := by
  induction l with
  | nil => rfl
  | cons s rest ih =>
    simp only [updateFirst]
    split
    · simp [stripEnrichment]
    · simp only [List.map_cons]
      rw [ih]

theorem updateFirst_map_url (l : List Source) (u : String) (md ct : Option String) :
    (updateFirst l u md ct).map (fun s => s.url) = l.map (fun s => s.url) := by
  induction l with
  | nil => rfl
  | cons s rest ih =>
    simp only [updateFirst]
    split
    · simp
    · simp only [List.map_cons]
      rw [ih]

theorem updateFirst_length (l : List Source) (u : String) (md ct : Option String) :
    (updateFirst l u md ct).length = l.length := by
  have h := congrArg List.length (updateFirst_map_url l u md ct)
  simpa using h

theorem updateFirst_drop (l : List Source) (u : String) (md ct : Option String)
    (n : Nat) (h : u ∈ (l.take n).map (fun s => s.url)) :
    (updateFirst l u md ct).drop n = l.drop n := by
  induction l generalizing n with
  | nil => rfl
  | cons s rest ih =>
    cases n with
    | zero => simp at h
    | succ m =>
      rw [List.take_succ_cons, List.map_cons] at h
      simp only [updateFirst]
      split
      · simp only [List.drop_succ_cons]
      · next hne =>
        simp only [List.drop_succ_cons]
        apply ih
        rcases List.mem_cons.mp h with h1 | h2
        · exact absurd h1.symm hne
        · exact h2

theorem updateFirst_get?_rule (l : List Source) (u : String) (md ct : Option String)
    (i : Nat) (s s' : Source) (hl : l.get? i = some s)
    (hl' : (updateFirst l u md ct).get? i = some s') :
    (s'.markdown = s.markdown ∨ truthy s'.markdown = true)
    ∧ (s'.content = s.content ∨ truthy s'.content = true) := by
  induction l generalizing i with
  | nil => simp at hl
  | cons a rest ih =>
    by_cases hu : a.url = u
    · simp only [updateFirst] at hl'
      rw [if_pos hu] at hl'
      cases i with
      | zero =>
        rw [List.get?_cons_zero] at hl hl'
        injection hl with hl
        injection hl' with hl'
        subst hl
        subst hl'
        constructor
        · by_cases hm : truthy md = true
          · right
            dsimp only
            rw [if_pos hm]
            exact hm
          · left
            dsimp only
            rw [if_neg hm]
        · by_cases hc : truthy ct = true
          · right
            dsimp only
            rw [if_pos hc]
            exact hc
          · left
            dsimp only
            rw [if_neg hc]
      | succ m =>
        rw [List.get?_cons_succ] at hl hl'
        rw [hl] at hl'
        injection hl' with hl'
        subst hl'
        exact ⟨Or.inl rfl, Or.inl rfl⟩
    · simp only [updateFirst] at hl'
      rw [if_neg hu] at hl'
      cases i with
      | zero =>
        rw [List.get?_cons_zero] at hl hl'
        injection hl with hl
        injection hl' with hl'
        subst hl
        subst hl'
        exact ⟨Or.inl rfl, Or.inl rfl⟩
      | succ m =>
        rw [List.get?_cons_succ] at hl hl'
        exact ih m hl hl'

theorem updateFirst_get?_nomatch (l : List Source) (u : String) (md ct : Option String)
    (i : Nat) (s : Source) (hl : l.get? i = some s) (hne : s.url ≠ u) :
    (updateFirst l u md ct).get? i = some s := by
  induction l generalizing i with
  | nil => simp at hl
  | cons a rest ih =>
    by_cases hu : a.url = u
    · simp only [updateFirst]
      rw [if_pos hu]
      cases i with
      | zero =>
        rw [List.get?_cons_zero] at hl
        injection hl with hl
        subst hl
        exact absurd hu hne
      | succ m =>
        rw [List.get?_cons_succ] at hl ⊢
        exact hl
    · simp only [updateFirst]
      rw [if_neg hu]
      cases i with
      | zero =>
        rw [List.get?_cons_zero] at hl ⊢
        exact hl
      | succ m =>
        rw [List.get?_cons_succ] at hl ⊢
        exact ih m hl

theorem mergeScrapes_map_strip (targets : List Source) :
    ∀ (acc : List Source) (outs : Nat → ScrapeOutcome) (i : Nat),
    (mergeScrapes acc targets outs i).map stripEnrichment
      = acc.map stripEnrichment := by
  induction targets with
  | nil => intro acc outs i; rfl
  | cons t rest ih =>
    intro acc outs i
    simp only [mergeScrapes]
    split
    · exact ih acc outs (i + 1)
    · rw [ih]
      exact updateFirst_map_strip ..

theorem mergeScrapes_map_url (targets : List Source) :
    ∀ (acc : List Source) (outs : Nat → ScrapeOutcome) (i : Nat),
    (mergeScrapes acc targets outs i).map (fun s => s.url)
      = acc.map (fun s => s.url) := by
  induction targets with
  | nil => intro acc outs i; rfl
  | cons t rest ih =>
    intro acc outs i
    simp only [mergeScrapes]
    split
    · exact ih acc outs (i + 1)
    · rw [ih]
      exact updateFirst_map_url ..

theorem mergeScrapes_drop (targets : List Source) :
    ∀ (acc : List Source) (outs : Nat → ScrapeOutcome) (i n : Nat),
    (∀ t ∈ targets, t.url ∈ (acc.take n).map (fun s => s.url)) →
    (mergeScrapes acc targets outs i).drop n = acc.drop n := by
  induction targets with
  | nil => intro acc outs i n _; rfl
  | cons t rest ih =>
    intro acc outs i n hmem
    simp only [mergeScrapes]
    split
    · exact ih acc outs (i + 1) n (fun t' ht' => hmem t' (List.mem_cons_of_mem _ ht'))
    · next md ct _ =>
      calc (mergeScrapes (updateFirst acc t.url md ct) rest outs (i + 1)).drop n
          = (updateFirst acc t.url md ct).drop n := by
            apply ih
            intro t' ht'
            have hsame : ((updateFirst acc t.url md ct).take n).map (fun s => s.url)
                = (acc.take n).map (fun s => s.url) := by
              rw [List.map_take, List.map_take, updateFirst_map_url]
            rw [hsame]
            exact hmem t' (List.mem_cons_of_mem _ ht')
        _ = acc.drop n :=
            updateFirst_drop _ _ _ _ _ (hmem t (List.mem_cons_self ..))

theorem mergeScrapes_outs_congr (targets : List Source) :
    ∀ (acc : List Source) (outs outs' : Nat → ScrapeOutcome) (i : Nat),
    (∀ j, j < targets.length → outs (i + j) = outs' (i + j)) →
    mergeScrapes acc targets outs i = mergeScrapes acc targets outs' i := by
  induction targets with
  | nil => intro acc outs outs' i _; rfl
  | cons t rest ih =>
    intro acc outs outs' i h
    have h0 : outs i = outs' i := by
      have := h 0 (by simp)
      simpa using this
    have hrest : ∀ j, j < rest.length → outs (i + 1 + j) = outs' (i + 1 + j) := by
      intro j hj
      have he : i + 1 + j = i + (j + 1) := by omega
      rw [he]
      exact h (j + 1) (by simp only [List.length_cons]; omega)
    simp only [mergeScrapes, h0]
    split
    · exact ih acc outs outs' (i + 1) hrest
    · exact ih _ outs outs' (i + 1) hrest

theorem mergeScrapes_get?_rule (targets : List Source) :
    ∀ (acc : List Source) (outs : Nat → ScrapeOutcome) (i idx : Nat) (s s' : Source),
    acc.get? idx = some s → (mergeScrapes acc targets outs i).get? idx = some s' →
    (s'.markdown = s.markdown ∨ truthy s'.markdown = true)
    ∧ (s'.content = s.content ∨ truthy s'.content = true) := by
  induction targets with
  | nil =>
    intro acc outs i idx s s' h1 h2
    simp only [mergeScrapes] at h2
    rw [h1] at h2
    injection h2 with h2
    subst h2
    exact ⟨Or.inl rfl, Or.inl rfl⟩
  | cons t rest ih =>
    intro acc outs i idx s s' h1 h2
    simp only [mergeScrapes] at h2
    split at h2
    · exact ih acc outs (i + 1) idx s s' h1 h2
    · next md ct _ =>
      rcases hmid : (updateFirst acc t.url md ct).get? idx with _ | s''
      · exfalso
        have hlen1 : idx < acc.length := by
          rcases List.get?_eq_some.mp h1 with ⟨hlt, _⟩
          exact hlt
        have hlen2 : (updateFirst acc t.url md ct).length ≤ idx :=
          List.get?_eq_none.mp hmid
        rw [updateFirst_length] at hlen2
        omega
      · have hstep := updateFirst_get?_rule acc t.url md ct idx s s'' h1 hmid
        have hrest := ih _ outs (i + 1) idx s'' s' hmid h2
        constructor
        · rcases hrest.1 with h | h
          · rw [h]
            exact hstep.1
          · exact Or.inr h
        · rcases hrest.2 with h | h
          · rw [h]
            exact hstep.2
          · exact Or.inr h

theorem mergeScrapes_get?_nomatch (targets : List Source) :
    ∀ (acc : List Source) (outs : Nat → ScrapeOutcome) (i idx : Nat) (s : Source),
    acc.get? idx = some s → (∀ t ∈ targets, s.url ≠ t.url) →
    (mergeScrapes acc targets outs i).get? idx = some s := by
  induction targets with
  | nil =>
    intro acc outs i idx s h1 _
    simpa only [mergeScrapes] using h1
  | cons t rest ih =>
    intro acc outs i idx s h1 hne
    simp only [mergeScrapes]
    split
    · exact ih acc outs (i + 1) idx s h1 (fun t' ht' => hne t' (List.mem_cons_of_mem _ ht'))
    · apply ih
      · exact updateFirst_get?_nomatch _ _ _ _ _ _ h1 (hne t (List.mem_cons_self ..))
      · exact fun t' ht' => hne t' (List.mem_cons_of_mem _ ht')

/-- C5.  The effective enrichment limit `L = Math.max(1, scrapeLimit)` is a
positive integer; an unset `FIRECRAWL_SCRAPE_LIMIT` defaults it to 5; the
enriched list depends only on the scrape outcomes of the first `L` targets
(so fetches are attempted only for the first `L` sources in citation
order); and every source at a position at or beyond `L` is returned exactly
as it was, retaining its original (possibly absent) `markdown` and
`content` fields. -/
theorem enrichment_limit_positive_and_bounded (o : Option JSNum)
    (srcs : List Source) (outs outs' : Nat → ScrapeOutcome) :
    1 ≤ effectiveLimit (o.getD (JSNum.val 5))
    ∧ (o = none → effectiveLimit (o.getD (JSNum.val 5)) = 5)
    ∧ ((enrichSources srcs outs (effectiveLimit (o.getD (JSNum.val 5)))).drop
          (effectiveLimit (o.getD (JSNum.val 5)))
        = srcs.drop (effectiveLimit (o.getD (JSNum.val 5))))
    ∧ ((∀ j, j < (srcs.take (effectiveLimit (o.getD (JSNum.val 5)))).length →
          outs j = outs' j) →
        enrichSources srcs outs (effectiveLimit (o.getD (JSNum.val 5)))
          = enrichSources srcs outs' (effectiveLimit (o.getD (JSNum.val 5)))) := by
  refine ⟨?_, ?_, ?_, ?_⟩
  · unfold effectiveLimit
    have h := le_max_left (1 : Int) (scrapeLimitInt (o.getD (JSNum.val 5)))
    omega
  · intro ho
    subst ho
    show (max 1 (scrapeLimitInt (JSNum.val 5))).toNat = 5
    have h5 : scrapeLimitInt (JSNum.val 5) = 5 := by
      simp only [scrapeLimitInt]
      rw [if_pos (by norm_num)]
      norm_num
    rw [h5]
    rfl
  · unfold enrichSources
    apply mergeScrapes_drop
    intro t ht
    exact List.mem_map_of_mem _ ht
  · intro h
    unfold enrichSources
    apply mergeScrapes_outs_congr
    intro j hj
    simpa using h j hj

/-- Witness for C5 at a concrete parsed limit and source list. -/
theorem enrichment_limit_positive_and_bounded_witness :
    1 ≤ effectiveLimit ((some (JSNum.val 1)).getD (JSNum.val 5))
    ∧ ((some (JSNum.val 1)) = none →
        effectiveLimit ((some (JSNum.val 1)).getD (JSNum.val 5)) = 5)
    ∧ ((enrichSources [srcAlpha, srcBeta] outsC6
          (effectiveLimit ((some (JSNum.val 1)).getD (JSNum.val 5)))).drop
          (effectiveLimit ((some (JSNum.val 1)).getD (JSNum.val 5)))
        = [srcAlpha, srcBeta].drop
            (effectiveLimit ((some (JSNum.val 1)).getD (JSNum.val 5))))
    ∧ ((∀ j, j < ([srcAlpha, srcBeta].take
            (effectiveLimit ((some (JSNum.val 1)).getD (JSNum.val 5)))).length →
          outsC6 j = outsC6 j) →
        enrichSources [srcAlpha, srcBeta] outsC6
            (effectiveLimit ((some (JSNum.val 1)).getD (JSNum.val 5)))
          = enrichSources [srcAlpha, srcBeta] outsC6
              (effectiveLimit ((some (JSNum.val 1)).getD (JSNum.val 5)))) :=
  enrichment_limit_positive_and_bounded (some (JSNum.val 1)) [srcAlpha, srcBeta]
    outsC6 outsC6

/-- C6.  Enrichment is a frame-preserving merge: the enriched list agrees
with the input list elementwise on everything except the `markdown` and
`content` fields (so membership, order, `url` and all other fields are
unchanged); an element whose `url` matches no enrichment target is returned
verbatim; and at every position each of `markdown` and `content` is either
the prior value or a present non-empty fetched value (JS `value || prior`
keeps the prior field when the fetched one is absent or empty). -/
theorem enrichment_preserves_list_and_fields (srcs : List Source)
    (outs : Nat → ScrapeOutcome) (limit : Nat) :
    ((enrichSources srcs outs limit).map stripEnrichment
        = srcs.map stripEnrichment)
    ∧ ((enrichSources srcs outs limit).map (fun s => s.url)
        = srcs.map (fun s => s.url))
    ∧ (∀ idx s, srcs.get? idx = some s →
        s.url ∉ (srcs.take limit).map (fun s => s.url) →
        (enrichSources srcs outs limit).get? idx = some s)
    ∧ (∀ idx s s', srcs.get? idx = some s →
        (enrichSources srcs outs limit).get? idx = some s' →
        (s'.markdown = s.markdown ∨ truthy s'.markdown = true)
        ∧ (s'.content = s.content ∨ truthy s'.content = true)) := by
  refine ⟨mergeScrapes_map_strip _ _ _ _, mergeScrapes_map_url _ _ _ _, ?_, ?_⟩
  · intro idx s h1 hnot
    unfold enrichSources
    apply mergeScrapes_get?_nomatch _ _ _ _ _ _ h1
    intro t ht heq
    exact hnot (heq ▸ List.mem_map_of_mem _ ht)
  · intro idx s s' h1 h2
    exact mergeScrapes_get?_rule _ _ _ _ _ _ _ h1 h2

/-- Witness for C6 at a concrete list, outcome set and limit. -/
theorem enrichment_preserves_list_and_fields_witness :
    ((enrichSources [srcAlpha, srcBeta] outsC6 1).map stripEnrichment
        = [srcAlpha, srcBeta].map stripEnrichment)
    ∧ ((enrichSources [srcAlpha, srcBeta] outsC6 1).map (fun s => s.url)
        = [srcAlpha, srcBeta].map (fun s => s.url))
    ∧ (∀ idx s, [srcAlpha, srcBeta].get? idx = some s →
        s.url ∉ ([srcAlpha, srcBeta].take 1).map (fun s => s.url) →
        (enrichSources [srcAlpha, srcBeta] outsC6 1).get? idx = some s)
    ∧ (∀ idx s s', [srcAlpha, srcBeta].get? idx = some s →
        (enrichSources [srcAlpha, srcBeta] outsC6 1).get? idx = some s' →
        (s'.markdown = s.markdown ∨ truthy s'.markdown = true)
        ∧ (s'.content = s.content ∨ truthy s'.content = true)) :=
  enrichment_preserves_list_and_fields [srcAlpha, srcBeta] outsC6 1

theorem runExecute_err (env : PipelineEnv) (e : Thrown)
    (hweb : env.webOutcome = Except.error e) :
    runExecute env = RunResult.mk (preEvents ++ [errorEvent e]) ("") := by
  unfold runExecute
  rw [hweb]

theorem runExecute_ok (env : PipelineEnv) (d : SearchPayload)
    (hweb : env.webOutcome = Except.ok d) :
    runExecute env = RunResult.mk (preEvents ++ okEvents env) (contextOfEnv env) := by
  unfold runExecute
  rw [hweb]

theorem errMessage_ne (t : Thrown) (h : t.isError = true → t.message ≠ ("")) :
    errMessage t ≠ ("") := by
  unfold errMessage
  by_cases hie : t.isError = true
  · rw [if_pos hie]
    exact h hie
  · rw [if_neg hie]
    decide

theorem errorResponses_error_ne (c : Nat) (r : ErrResp)
    (h : errorResponses c = some r) : r.error ≠ ("") := by
  unfold errorResponses at h
  split_ifs at h
  all_goals first
    | (injection h with h; subst h; decide)
    | exact Option.noConfusion h

theorem errResp_error_ne (t : Thrown) (h : t.isError = true → t.message ≠ ("")) :
    (errRespOf t).error ≠ ("") := by
  unfold errRespOf
  rcases hsc : resolvedStatusCode t with _ | c
  · exact errMessage_ne t h
  · dsimp only
    by_cases hc0 : c ≠ 0
    · rw [if_pos hc0]
      rcases ht : errorResponses c with _ | r
      · exact errMessage_ne t h
      · exact errorResponses_error_ne c r ht
    · rw [if_neg hc0]
      exact errMessage_ne t h

theorem sourcesEventsOf_append (l1 l2 : List Event) :
    sourcesEventsOf (l1 ++ l2) = sourcesEventsOf l1 ++ sourcesEventsOf l2 :=
  List.filterMap_append ..

theorem sourcesEventsOf_tokenDeltas (chunks : List String) :
    sourcesEventsOf (chunks.map Event.tokenDelta) = [] := by
  induction chunks with
  | nil => rfl
  | cons c cs ih =>
    simp only [List.map_cons, sourcesEventsOf, List.filterMap_cons] at ih ⊢
    exact ih

theorem sourcesEventsOf_genEvents (env : PipelineEnv) :
    sourcesEventsOf (genEvents env) = [] := by
  unfold genEvents
  rcases hg : env.genOutcome with e | chunks
  · rfl
  · dsimp only
    rcases hfu : env.followUpOutcome with e' | t
    · dsimp only
      rw [List.append_nil]
      exact sourcesEventsOf_tokenDeltas chunks
    · dsimp only
      rw [sourcesEventsOf_append, sourcesEventsOf_tokenDeltas]
      rfl

theorem sourcesEventsOf_okEvents (env : PipelineEnv) :
    sourcesEventsOf (okEvents env) = [emittedBundle env] := by
  unfold okEvents
  rw [sourcesEventsOf_append, sourcesEventsOf_append, sourcesEventsOf_append,
    sourcesEventsOf_append, sourcesEventsOf_append, sourcesEventsOf_genEvents]
  have h1 : sourcesEventsOf (if (normalizedSources env).isEmpty then []
      else [Event.status ("status-3a") ("Fetching full article content...")]) = [] := by
    split <;> rfl
  have h2 : sourcesEventsOf (if (normalizedSources env).isEmpty then []
      else [Event.status ("status-2b") ("Analyzing detailed content...")]) = [] := by
    split <;> rfl
  have h3 : sourcesEventsOf (if truthy env.tickerResult then
      [Event.ticker (env.tickerResult.getD (""))] else []) = [] := by
    split <;> rfl
  rw [h1, h2, h3]
  rfl

theorem all_not_error_tokenDeltas (chunks : List String) :
    (chunks.map Event.tokenDelta).all (fun ev => !(eventIsError ev)) = true := by
  induction chunks with
  | nil => rfl
  | cons c cs ih =>
    rw [List.map_cons, List.all_cons, ih]
    rfl

/-- C3.  When the required general-category search rejects, the run reaches
the catch block: the event trace carries exactly one error event, its
`error` field is non-empty (assuming the thrown value, when it is an
`Error`, carries a non-empty message — every throw site of the route builds
such a message), there are no sources, token-delta, ticker or follow-up
events, and the context is never built, so no later pipeline stage runs. -/
theorem required_search_failure_single_error_event (env : PipelineEnv)
    (e : Thrown) (hweb : env.webOutcome = Except.error e)
    (hmsg : e.isError = true → e.message ≠ ("")) :
    errorFieldsOf (runExecute env).events = [(errRespOf e).error]
    ∧ (errRespOf e).error ≠ ("")
    ∧ (runExecute env).events.all (fun ev => !(eventIsSources ev)) = true
    ∧ (runExecute env).events.all (fun ev => !(eventIsTokenDelta ev)) = true
    ∧ (runExecute env).events.all (fun ev => !(eventIsTicker ev)) = true
    ∧ (runExecute env).events.all (fun ev => !(eventIsFollowup ev)) = true
    ∧ (runExecute env).context = ("") := by
  rw [runExecute_err env e hweb]
  exact ⟨rfl, errResp_error_ne e hmsg, rfl, rfl, rfl, rfl, rfl⟩

/-- Witness for C3 at a concrete failing environment. -/
theorem required_search_failure_single_error_event_witness :
    errorFieldsOf (runExecute envC3).events = [(errRespOf thrownC3).error]
    ∧ (errRespOf thrownC3).error ≠ ("")
    ∧ (runExecute envC3).events.all (fun ev => !(eventIsSources ev)) = true
    ∧ (runExecute envC3).events.all (fun ev => !(eventIsTokenDelta ev)) = true
    ∧ (runExecute envC3).events.all (fun ev => !(eventIsTicker ev)) = true
    ∧ (runExecute envC3).events.all (fun ev => !(eventIsFollowup ev)) = true
    ∧ (runExecute envC3).context = ("") :=
  required_search_failure_single_error_event envC3 thrownC3 rfl (by decide)

/-- C4.  When a best-effort category search (news or images) rejects while
the general search succeeds, the failing category's collection in the
emitted bundle is empty, and — the generation call succeeding — the trace
contains no error event at all, so the request ends in a non-error terminal
state. -/
theorem best_effort_failure_yields_empty_collection (env : PipelineEnv)
    (d : SearchPayload) (chunks : List String)
    (hweb : env.webOutcome = Except.ok d)
    (hgen : env.genOutcome = Except.ok chunks) :
    (failed env.newsOutcome = true → (emittedBundle env).newsResults = [])
    ∧ (failed env.imagesOutcome = true → (emittedBundle env).imageResults = [])
    ∧ (runExecute env).events.all (fun ev => !(eventIsError ev)) = true := by
  refine ⟨?_, ?_, ?_⟩
  · intro hf
    show normalizedNews env = []
    unfold normalizedNews
    rcases henv : env.newsOutcome with e | d'
    · rfl
    · rw [henv] at hf
      simp [failed] at hf
  · intro hf
    show normalizedImages env = []
    unfold normalizedImages
    rcases henv : env.imagesOutcome with e | d'
    · rfl
    · rw [henv] at hf
      simp [failed] at hf
  · rw [runExecute_ok env d hweb]
    show (preEvents ++ okEvents env).all (fun ev => !(eventIsError ev)) = true
    rw [List.all_append]
    have hpre : preEvents.all (fun ev => !(eventIsError ev)) = true := rfl
    rw [hpre, Bool.true_and]
    unfold okEvents
    rw [List.all_append, List.all_append, List.all_append, List.all_append,
      List.all_append]
    have h1 : (if (normalizedSources env).isEmpty then ([] : List Event)
        else [Event.status ("status-3a") ("Fetching full article content...")]).all
          (fun ev => !(eventIsError ev)) = true := by
      split <;> rfl
    have h2 : (if (normalizedSources env).isEmpty then ([] : List Event)
        else [Event.status ("status-2b") ("Analyzing detailed content...")]).all
          (fun ev => !(eventIsError ev)) = true := by
      split <;> rfl
    have h3 : (if truthy env.tickerResult then
        [Event.ticker (env.tickerResult.getD (""))] else ([] : List Event)).all
          (fun ev => !(eventIsError ev)) = true := by
      split <;> rfl
    have h4 : (genEvents env).all (fun ev => !(eventIsError ev)) = true := by
      unfold genEvents
      rw [hgen]
      dsimp only
      rcases hfu : env.followUpOutcome with e' | t
      · dsimp only
        rw [List.append_nil]
        exact all_not_error_tokenDeltas chunks
      · dsimp only
        rw [List.all_append, all_not_error_tokenDeltas chunks]
        rfl
    rw [h1, h2, h3, h4]
    rfl

/-- Witness for C4 at a concrete environment whose news search rejects. -/
theorem best_effort_failure_yields_empty_collection_witness :
    (failed envC4.newsOutcome = true → (emittedBundle envC4).newsResults = [])
    ∧ (failed envC4.imagesOutcome = true → (emittedBundle envC4).imageResults = [])
    ∧ (runExecute envC4).events.all (fun ev => !(eventIsError ev)) = true :=
  best_effort_failure_yields_empty_collection envC4 payloadC4 [("chunk one")]
    rfl rfl

/-- C1.  For a run whose general search succeeded, the single emitted bundle
carries exactly the source list the generation context is built from; the
context is the concatenation, in the bundle's `sources` order, of one block
per source; and the block at 0-based position `i` is tagged with citation
marker `[i+1]` and contains the source's title, URL, and the
Relevance-Selector output for `markdown || content || ''` under the
per-source budget of 2000 characters. -/
theorem context_blocks_match_bundle_order (env : PipelineEnv)
    (d : SearchPayload) (hweb : env.webOutcome = Except.ok d) :
    sourcesEventsOf (runExecute env).events = [emittedBundle env]
    ∧ (runExecute env).context
        = String.intercalate ("\n\n---\n\n")
            (((emittedBundle env).sources).enum.map (contextEntry env.query))
    ∧ (∀ p ∈ ((emittedBundle env).sources).enum,
        contextEntry env.query p
          = ("[") ++ toString (p.1 + 1) ++ ("] ") ++ p.2.title ++ ("\nURL: ")
              ++ p.2.url ++ ("\n")
              ++ selectRelevantContent (bestContent p.2) env.query 2000) := by
  rw [runExecute_ok env d hweb]
  refine ⟨?_, ?_, ?_⟩
  · show sourcesEventsOf (preEvents ++ okEvents env) = [emittedBundle env]
    rw [sourcesEventsOf_append, sourcesEventsOf_okEvents]
    rfl
  · rfl
  · intro p _
    rfl

/-- Witness for C1 at a concrete run with one web result. -/
theorem context_blocks_match_bundle_order_witness :
    sourcesEventsOf (runExecute envC1).events = [emittedBundle envC1]
    ∧ (runExecute envC1).context
        = String.intercalate ("\n\n---\n\n")
            (((emittedBundle envC1).sources).enum.map (contextEntry envC1.query))
    ∧ (∀ p ∈ ((emittedBundle envC1).sources).enum,
        contextEntry envC1.query p
          = ("[") ++ toString (p.1 + 1) ++ ("] ") ++ p.2.title ++ ("\nURL: ")
              ++ p.2.url ++ ("\n")
              ++ selectRelevantContent (bestContent p.2) envC1.query 2000) :=
  context_blocks_match_bundle_order envC1 payloadC1 rfl

/-- C8 counterexample: a run whose general search succeeds with a non-empty
normalized source list emits the `data-sources` bundle exactly once, not
twice as the claim states. -/
theorem sources_bundle_double_emission_counterexample :
    (normalizedSources envC8 ≠ [])
    ∧ (sourcesEventsOf (runExecute envC8).events).length = 1 := by
  constructor
  · decide
  · decide

/-- C8 as amended.  For every run whose general search succeeds, the
`sources` bundle event is emitted exactly once — after enrichment settles
when the normalized list is non-empty (the single event carries the
enriched bundle), and with the unenriched bundle when the list is empty, in
which case enrichment is skipped entirely. -/
theorem sources_bundle_emitted_exactly_once (env : PipelineEnv)
    (d : SearchPayload) (hweb : env.webOutcome = Except.ok d) :
    sourcesEventsOf (runExecute env).events = [emittedBundle env]
    ∧ ((normalizedSources env).isEmpty = true →
        enrichedSources env = normalizedSources env)
    ∧ ((normalizedSources env).isEmpty = false →
        enrichedSources env
          = enrichSources (normalizedSources env) env.scrapeOutcome
              (effectiveLimit (parsedLimitOf env))) := by
  refine ⟨?_, ?_, ?_⟩
  · rw [runExecute_ok env d hweb]
    show sourcesEventsOf (preEvents ++ okEvents env) = [emittedBundle env]
    rw [sourcesEventsOf_append, sourcesEventsOf_okEvents]
    rfl
  · intro h
    unfold enrichedSources
    rw [if_pos h]
  · intro h
    unfold enrichedSources
    rw [if_neg (by rw [h]; exact Bool.false_ne_true)]

/-- Witness for the amended C8 at a concrete run. -/
theorem sources_bundle_emitted_exactly_once_witness :
    sourcesEventsOf (runExecute envC8).events = [emittedBundle envC8]
    ∧ ((normalizedSources envC8).isEmpty = true →
        enrichedSources envC8 = normalizedSources envC8)
    ∧ ((normalizedSources envC8).isEmpty = false →
        enrichedSources envC8
          = enrichSources (normalizedSources envC8) envC8.scrapeOutcome
              (effectiveLimit (parsedLimitOf envC8))) :=
  sources_bundle_emitted_exactly_once envC8 payloadC8 rfl
